import Mathlib

/-!
Shallow embedding of the Markov chain text generator (src/Markov.cpp,
final revision: classes Parser, Word, MarkovChain, Corpus).

The stream is a list of characters consumed from the front; the C++
std::map ordered by string key becomes a sorted association list; the
mt19937 generator together with std::discrete_distribution becomes an
explicit draw q : Rat with 0 <= q < 1 selecting an index by cumulative
weight; exit(1) paths and the out-of-bounds vector access become
Except errors.
-/

/-- STOP_CHAR from the source: the line-break character. -/
def stopChar : Char := '\n'

/-- stop_string from Corpus::build: the one-character boundary token. -/
def stopString : String := String.mk [stopChar]

namespace Parser

/-- Loop skipping preceding whitespace: while peek is a space, get. -/
def skipSpaces : List Char → List Char
  | [] => []
  | c :: cs => if c = ' ' then skipSpaces cs else c :: cs

/-- Loop consuming the run of stop characters: while peek is STOP_CHAR, get. -/
def skipStops : List Char → List Char
  | [] => []
  | c :: cs => if c = stopChar then skipStops cs else c :: cs

/-- Word-reading loop of Parser::next: eat characters into the buffer until
a space, the stop character, or end of input; returns buffer and rest. -/
def readWord : List Char → List Char × List Char
  | [] => ([], [])
  | c :: cs =>
    if c = ' ' then ([], c :: cs)
    else if c = stopChar then ([], c :: cs)
    else
      let p := readWord cs
      (c :: p.1, p.2)

/-- Parser::next: skip spaces; if at the stop character consume the whole
run and return the stop string; otherwise read a word token. Returns the
token and the remaining stream. -/
def next (s : List Char) : String × List Char :=
  match skipSpaces s with
  | [] => ("", [])
  | c :: cs =>
    if c = stopChar then (stopString, skipStops (c :: cs))
    else
      let p := readWord (c :: cs)
      (String.mk p.1, p.2)

end Parser

/-- Stream of Parser::next results while the parser is not done, with fuel
(one unit per call; each call on a nonempty stream consumes a character). -/
def tokens : Nat → List Char → List String
  | 0, _ => []
  | fuel + 1, s =>
    if s.isEmpty then []
    else
      let p := Parser.next s
      p.1 :: tokens fuel p.2

/-- Tokenize a whole string buffer. -/
def tokenize (s : String) : List String := tokens s.data.length s.data

/-- Lexicographic comparison of character lists, as std::string operator<. -/
def strLt : List Char → List Char → Bool
  | [], [] => false
  | [], _ :: _ => true
  | _ :: _, [] => false
  | a :: as, b :: bs => if a = b then strLt as bs else decide (a < b)

/-- Word: per-token transition table.  `transitions` mirrors the
std::map<std::string,int> (kept sorted by key, as the map iterates);
`delta` holds the probabilities handed to the discrete_distribution at
the last cache() call, `delta_lookup` the token at each index. -/
structure Word where
  word_string : String
  transitions : List (String × Nat)
  num_transitions : Nat
  delta : List ℚ
  delta_lookup : List String
  deriving DecidableEq

/-- Word(std::string word) constructor: empty tables, zero transitions. -/
def Word.ofString (s : String) : Word := ⟨s, [], 0, [], []⟩

/-- Word() default constructor, as produced by operator[] on a missing key. -/
def Word.empty : Word := ⟨"", [], 0, [], []⟩

/-- transitions[next]++ on the sorted association list: insert with count 0
first if absent, then increment. -/
def bump (l : List (String × Nat)) (k : String) : List (String × Nat) :=
  match l with
  | [] => [(k, 1)]
  | (k', n) :: rest =>
    if k = k' then (k', n + 1) :: rest
    else if strLt k.data k'.data then (k, 1) :: (k', n) :: rest
    else (k', n) :: bump rest k

/-- Word::update_transition: transitions[next]++; num_transitions++. -/
def Word.update_transition (w : Word) (next : String) : Word :=
  { w with transitions := bump w.transitions next,
           num_transitions := w.num_transitions + 1 }

/-- Word::cache: clear the lookup table and rebuild it together with the
probability vector p (count divided by num_transitions, in map order);
the delta distribution is rebuilt from p. -/
def Word.cache (w : Word) : Word :=
  { w with delta_lookup := w.transitions.map Prod.fst,
           delta := w.transitions.map
             (fun pr => (pr.2 : ℚ) / (w.num_transitions : ℚ)) }

/-- Cumulative-weight index selection: the least index i whose cumulative
weight exceeds the target t; falls off the end at t past the total. -/
def pick : List ℚ → ℚ → Nat
  | [], _ => 0
  | w :: rest, t => if t < w then 0 else pick rest (t - w) + 1

/-- Semantics of delta(generator): a draw q in [0,1) selects index i with
probability weight i over the sum of weights; a default-constructed
distribution (no weights) always returns 0. -/
def selectIdx (ws : List ℚ) (q : ℚ) : Nat :=
  match ws with
  | [] => 0
  | _ :: _ => pick ws (q * ws.sum)

/-- Word::next: delta_lookup[delta(generator)]; none models the
out-of-bounds vector access when the index is past the table. -/
def Word.next (w : Word) (q : ℚ) : Option String :=
  w.delta_lookup[selectIdx w.delta q]?

/-- Dictionary of the corpus: token string to Word, in insertion order. -/
abbrev Dict := List (String × Word)

/-- dictionary.find: lookup by key. -/
def dictFind : Dict → String → Option Word
  | [], _ => none
  | (k, w) :: rest, key => if k = key then some w else dictFind rest key

/-- Corpus::add_pair: emplace Word(curr) if the key is absent, then
update_transition(next) on the entry. -/
def add_pair (d : Dict) (curr nxt : String) : Dict :=
  match d with
  | [] => [(curr, (Word.ofString curr).update_transition nxt)]
  | (k, w) :: rest =>
    if k = curr then (k, w.update_transition nxt) :: rest
    else (k, w) :: add_pair rest curr nxt

/-- Main loop of Corpus::build: while the parser is not done, read next;
if the parser is now done replace next by the stop string; add the pair
(curr, next) and continue with curr := next.  Fuel bounds the iteration
count (the stream loses at least one character per call). -/
def buildLoop : Nat → List Char → String → Dict → Dict
  | 0, _, _, d => d
  | fuel + 1, s, curr, d =>
    if s.isEmpty then d
    else
      let p := Parser.next s
      let nxt := if p.2.isEmpty then stopString else p.1
      buildLoop fuel p.2 nxt (add_pair d curr nxt)

/-- Final loop of Corpus::build: cache every Word in the dictionary. -/
def cacheAll (d : Dict) : Dict := d.map (fun pr => (pr.1, pr.2.cache))

/-- Corpus: the not_built flag and the dictionary (the mt19937 generator
is modelled by the explicit draws fed to sampling). -/
structure Corpus where
  not_built : Bool
  dictionary : Dict
  deriving DecidableEq

/-- Corpus() constructor: not built, empty dictionary. -/
def Corpus.start : Corpus := ⟨true, []⟩

/-- Corpus::build(stream): run the build loop from curr = stop_string over
the existing dictionary (the source never clears it), then cache every
table and clear not_built. -/
def Corpus.build (c : Corpus) (input : String) : Corpus :=
  ⟨false, cacheAll (buildLoop input.data.length input.data stopString c.dictionary)⟩

/-- Error outcomes of the chain operations: the two exit(1) messages and
the undefined out-of-bounds vector access in Word::next. -/
inductive MarkovError where
  | invalidChain
  | needBuild
  | indexOutOfBounds
  deriving DecidableEq

/-- MarkovChain: valid records whether the generator/dictionary pointers
are set (false for the default-constructed chain); current_word is the
cursor, used as a key into the dictionary. -/
structure MarkovChain where
  valid : Bool
  current_word : String
  deriving DecidableEq

/-- MarkovChain() default constructor: null pointers, empty cursor. -/
def MarkovChain.invalid : MarkovChain := ⟨false, ""⟩

/-- MarkovChain::done: the cursor equals the stop string.  No validity
check is performed. -/
def MarkovChain.done (c : MarkovChain) : Bool := c.current_word = stopString

/-- MarkovChain::next: error out on a default-constructed chain; otherwise
use the stop string as key when the cursor is empty, look the key up
(operator[] default-constructs a Word on a miss), sample a successor and
advance the cursor. -/
def MarkovChain.next (d : Dict) (c : MarkovChain) (q : ℚ) :
    Except MarkovError (String × MarkovChain) :=
  if c.valid = false then .error .invalidChain
  else
    let key := if c.current_word = "" then stopString else c.current_word
    let w := (dictFind d key).getD Word.empty
    match w.next q with
    | none => .error .indexOutOfBounds
    | some s => .ok (s, ⟨c.valid, s⟩)

/-- Corpus::chain: error out when the corpus is not built, otherwise hand
out a chain with valid pointers and an empty cursor. -/
def Corpus.chain (c : Corpus) : Except MarkovError MarkovChain :=
  if c.not_built then .error .needBuild else .ok ⟨true, ""⟩

/-- Repeated MarkovChain::next driven by a list of draws, collecting the
generated tokens (the main loop of the program). -/
def MarkovChain.run (d : Dict) : MarkovChain → List ℚ → Except MarkovError (List String)
  | _, [] => .ok []
  | c, q :: qs =>
    match MarkovChain.next d c q with
    | .error e => .error e
    | .ok p =>
      match MarkovChain.run d p.2 qs with
      | .error e => .error e
      | .ok ss => .ok (p.1 :: ss)

instance {ε α : Type} [DecidableEq ε] [DecidableEq α] : DecidableEq (Except ε α) := fun
  | .error a, .error b =>
    if h : a = b then .isTrue (by rw [h]) else .isFalse (by intro hc; cases hc; exact h rfl)
  | .error _, .ok _ => .isFalse (by intro hc; cases hc)
  | .ok _, .error _ => .isFalse (by intro hc; cases hc)
  | .ok a, .ok b =>
    if h : a = b then .isTrue (by rw [h]) else .isFalse (by intro hc; cases hc; exact h rfl)

/-- Sum of the counts of a transition list. -/
def countSum (l : List (String × Nat)) : Nat := (l.map Prod.snd).sum

/-- Invariant of a Word's counters: num_transitions equals the sum of the
transition counts and is positive. -/
def Word.countsInv (w : Word) : Prop :=
  w.num_transitions = countSum w.transitions ∧ 0 < w.num_transitions

instance (w : Word) : Decidable w.countsInv := by
  unfold Word.countsInv; infer_instance

theorem skipStops_eq_dropWhile (l : List Char) :
    Parser.skipStops l = l.dropWhile (fun c => decide (c = stopChar)) := by
  induction l with
  | nil => rfl
  | cons c cs ih =>
    by_cases h : c = stopChar
    · simp [Parser.skipStops, List.dropWhile, h, ih]
    · simp [Parser.skipStops, List.dropWhile, h, ih]

theorem countSum_bump (l : List (String × Nat)) (k : String) :
    countSum (bump l k) = countSum l + 1 := by
  induction l with
  | nil => rfl
  | cons p rest ih =>
    obtain ⟨k', n⟩ := p
    by_cases h : k = k'
    · simp [bump, h, countSum]
      omega
    · by_cases h2 : strLt k.data k'.data
      · simp [bump, h, h2, countSum]
        omega
      · simp [bump, h, h2, countSum] at ih ⊢
        omega

theorem countsInv_update (w : Word) (t : String) (h : w.countsInv) :
    (w.update_transition t).countsInv := by
  obtain ⟨h1, h2⟩ := h
  constructor
  · simp [Word.update_transition, countSum_bump, h1]
  · simp [Word.update_transition]

theorem countsInv_first (k t : String) :
    ((Word.ofString k).update_transition t).countsInv := by
  constructor
  · simp [Word.ofString, Word.update_transition, bump, countSum]
  · simp [Word.ofString, Word.update_transition]

theorem add_pair_inv (d : Dict) (a b : String)
    (h : ∀ kw ∈ d, Word.countsInv kw.2) :
    ∀ kw ∈ add_pair d a b, Word.countsInv kw.2 := by
  induction d with
  | nil =>
    intro kw hkw
    simp [add_pair] at hkw
    rw [hkw]
    exact countsInv_first a b
  | cons p rest ih =>
    intro kw hkw
    obtain ⟨k0, w0⟩ := p
    by_cases hk : k0 = a
    · simp [add_pair, hk] at hkw
      rcases hkw with hkw | hkw
      · rw [hkw]
        exact countsInv_update _ _ (h (a, w0) (by simp [hk]))
      · exact h kw (by simp [hkw])
    · simp [add_pair, hk] at hkw
      rcases hkw with hkw | hkw
      · rw [hkw]
        exact h (k0, w0) (by simp)
      · exact ih (fun kw hkw => h kw (by simp [hkw])) kw hkw

theorem buildLoop_inv (fuel : Nat) :
    ∀ (s : List Char) (curr : String) (d : Dict),
      (∀ kw ∈ d, Word.countsInv kw.2) →
      ∀ kw ∈ buildLoop fuel s curr d, Word.countsInv kw.2 := by
  induction fuel with
  | zero =>
    intro s curr d h
    simpa [buildLoop] using h
  | succ f ih =>
    intro s curr d h
    by_cases hs : s.isEmpty
    · simpa [buildLoop, hs] using h
    · simp only [buildLoop, hs, Bool.false_eq_true, if_false]
      exact ih _ _ _ (add_pair_inv _ _ _ h)

theorem sum_map_div (l : List (String × Nat)) (T : ℚ) :
    (l.map (fun pr => (pr.2 : ℚ) / T)).sum = (countSum l : ℚ) / T := by
  induction l with
  | nil => simp [countSum]
  | cons p rest ih =>
    rw [List.map_cons, List.sum_cons, ih]
    have hc : countSum (p :: rest) = p.2 + countSum rest := by simp [countSum]
    rw [hc]
    push_cast
    rw [div_add_div_same]

theorem cache_delta_sum (w : Word) (h : w.countsInv) : w.cache.delta.sum = 1 := by
  obtain ⟨h1, h2⟩ := h
  simp [Word.cache, sum_map_div, ← h1]
  exact div_self (by exact_mod_cast h2.ne')

theorem dictFind_cacheAll (d : Dict) (k : String) :
    dictFind (cacheAll d) k = (dictFind d k).map Word.cache := by
  induction d with
  | nil => rfl
  | cons p rest ih =>
    obtain ⟨k0, w0⟩ := p
    by_cases h : k0 = k
    · simp [cacheAll, dictFind, h]
    · simp only [cacheAll] at ih ⊢
      simp [dictFind, h, ih]

theorem dictFind_mem (d : Dict) (k : String) (w : Word)
    (h : dictFind d k = some w) : (k, w) ∈ d := by
  induction d with
  | nil => simp [dictFind] at h
  | cons p rest ih =>
    obtain ⟨k0, w0⟩ := p
    by_cases hk : k0 = k
    · simp [dictFind, hk] at h
      simp [hk, h]
    · simp [dictFind, hk] at h
      simp [ih h]

theorem add_pair_find (d : Dict) (a b k : String) (w : Word)
    (h : dictFind d k = some w) :
    ∃ w', dictFind (add_pair d a b) k = some w' ∧
      countSum w.transitions ≤ countSum w'.transitions := by
  induction d with
  | nil => simp [dictFind] at h
  | cons p rest ih =>
    obtain ⟨k0, w0⟩ := p
    by_cases hk : k0 = k
    · subst hk
      simp [dictFind] at h
      subst h
      by_cases ha : k0 = a
      · subst ha
        refine ⟨w0.update_transition b, ?_, ?_⟩
        · simp [add_pair, dictFind]
        · simp [Word.update_transition, countSum_bump]
      · refine ⟨w0, ?_, le_refl _⟩
        simp [add_pair, dictFind, ha]
    · simp [dictFind, hk] at h
      by_cases ha : k0 = a
      · subst ha
        refine ⟨w, ?_, le_refl _⟩
        simp [add_pair, dictFind, hk, h]
      · obtain ⟨w', hw', hle⟩ := ih h
        refine ⟨w', ?_, hle⟩
        simp [add_pair, dictFind, ha, hk, hw']

theorem buildLoop_find (fuel : Nat) :
    ∀ (s : List Char) (curr : String) (d : Dict) (k : String) (w : Word),
      dictFind d k = some w →
      ∃ w', dictFind (buildLoop fuel s curr d) k = some w' ∧
        countSum w.transitions ≤ countSum w'.transitions := by
  induction fuel with
  | zero =>
    intro s curr d k w h
    exact ⟨w, by simpa [buildLoop] using h, le_refl _⟩
  | succ f ih =>
    intro s curr d k w h
    by_cases hs : s.isEmpty
    · exact ⟨w, by simpa [buildLoop, hs] using h, le_refl _⟩
    · simp only [buildLoop, hs, Bool.false_eq_true, if_false]
      obtain ⟨w1, hw1, hle1⟩ := add_pair_find d curr
        (if (Parser.next s).2.isEmpty then stopString else (Parser.next s).1) k w h
      obtain ⟨w2, hw2, hle2⟩ := ih _ _ _ k w1 hw1
      exact ⟨w2, hw2, hle1.trans hle2⟩

theorem word_next_one (w : Word) (t : String) (hd : w.delta = [1])
    (hl : w.delta_lookup = [t]) (q : ℚ) (_h0 : 0 ≤ q) (h1 : q < 1) :
    w.next q = some t := by
  simp [Word.next, hd, hl, selectIdx, pick, h1]

theorem word_next_two_lo (w : Word) (a b : String) (hd : w.delta = [1/2, 1/2])
    (hl : w.delta_lookup = [a, b]) (q : ℚ) (_h0 : 0 ≤ q) (h1 : q < 1/2) :
    w.next q = some a := by
  simp only [Word.next, hd, hl, selectIdx, pick]
  norm_num
  rw [if_pos h1]
  rfl

theorem word_next_two_hi (w : Word) (a b : String) (hd : w.delta = [1/2, 1/2])
    (hl : w.delta_lookup = [a, b]) (q : ℚ) (h0 : 1/2 ≤ q) (h1 : q < 1) :
    w.next q = some b := by
  simp only [Word.next, hd, hl, selectIdx, pick]
  norm_num
  rw [if_neg (not_lt.mpr h0), if_pos (by linarith : q - 1/2 < 1/2)]
  rfl

theorem chain_next_eq (d : Dict) (cur key : String) (w : Word) (q : ℚ) (s : String)
    (hkey : (if cur = "" then stopString else cur) = key)
    (hfind : dictFind d key = some w) (hw : w.next q = some s) :
    MarkovChain.next d ⟨true, cur⟩ q = .ok (s, ⟨true, s⟩) := by
  simp [MarkovChain.next, hkey, hfind, hw]

/-- Claim C4: the tokenizer collapses every contiguous run of line-break
characters into exactly one BOUNDARY token: Parser::next at a line break
consumes the whole run and returns the stop string, and "a\n\n\nb"
tokenizes to ["a", BOUNDARY, "b"], never with three boundaries. -/
theorem C4_boundary_collapsing :
    (∀ s : List Char, Parser.next (stopChar :: s)
        = (stopString, (stopChar :: s).dropWhile (fun c => decide (c = stopChar)))) ∧
    tokenize "a\n\n\nb" = ["a", stopString, "b"] ∧
    tokenize "a\n\n\nb" ≠ ["a", stopString, stopString, stopString, "b"] := by
  refine ⟨?_, by decide, by decide⟩
  intro s
  rw [← skipStops_eq_dropWhile]
  simp [Parser.next, Parser.skipSpaces, stopChar]

/-- Claim C6: Word::cache is idempotent: caching twice with no intervening
observation yields a bit-identical distribution and lookup table. -/
theorem C6_cache_idempotent (w : Word) : w.cache.cache = w.cache := by
  simp [Word.cache]

/-- Claim C5: update_transition preserves the counter invariant
(num_transitions equals the sum of the counts and is positive), and in
every built model every token with a table has total equal to the sum of
its counts and compiled probabilities summing to exactly 1, hence within
the 1e-9 tolerance. -/
theorem C5_counts_invariant :
    (∀ (k t : String), ((Word.ofString k).update_transition t).countsInv) ∧
    (∀ (w : Word) (t : String), w.countsInv → (w.update_transition t).countsInv) ∧
    (∀ (input k : String) (w : Word),
      dictFind (Corpus.start.build input).dictionary k = some w →
      w.num_transitions = countSum w.transitions ∧
      w.delta.sum = 1 ∧ |w.delta.sum - 1| ≤ 1 / 1000000000) := by
  refine ⟨countsInv_first, countsInv_update, ?_⟩
  intro input k w h
  simp only [Corpus.build, Corpus.start] at h
  rw [dictFind_cacheAll] at h
  obtain ⟨w0, hw0, rfl⟩ := Option.map_eq_some'.mp h
  have hmem := dictFind_mem _ _ _ hw0
  have hinv : w0.countsInv :=
    buildLoop_inv input.data.length input.data stopString []
      (by intro kw hkw; exact absurd hkw (List.not_mem_nil kw)) (k, w0) hmem
  have hsum := cache_delta_sum w0 hinv
  refine ⟨?_, hsum, ?_⟩
  · show w0.cache.num_transitions = countSum w0.cache.transitions
    simp only [Word.cache]
    exact hinv.1
  · rw [hsum]
    norm_num

/-- Witness for C5 at the corpus "x y\nz y\n" and the token "x". -/
theorem C5_counts_invariant_witness :
    (((Word.ofString "a").update_transition "b").update_transition "b").countsInv ∧
    ((⟨"x", [("y", 1)], 1, [1], ["y"]⟩ : Word).num_transitions
        = countSum (⟨"x", [("y", 1)], 1, [1], ["y"]⟩ : Word).transitions ∧
      (⟨"x", [("y", 1)], 1, [1], ["y"]⟩ : Word).delta.sum = 1 ∧
      |(⟨"x", [("y", 1)], 1, [1], ["y"]⟩ : Word).delta.sum - 1| ≤ 1 / 1000000000) := by
  constructor
  · exact C5_counts_invariant.2.1 _ "b" (C5_counts_invariant.1 "a" "b")
  · exact C5_counts_invariant.2.2 "x y\nz y\n" "x" _ (by with_unfolding_all rfl)

/-- Claim C2 (code bug): on the empty corpus, build succeeds but leaves a
completely empty dictionary (no start table at all), and a subsequent
step indexes the empty lookup vector out of bounds instead of raising a
usage error. -/
theorem C2_empty_corpus_out_of_bounds :
    (Corpus.start.build "").dictionary = [] ∧
    ∀ q : ℚ, MarkovChain.next (Corpus.start.build "").dictionary ⟨true, ""⟩ q
        = .error .indexOutOfBounds :=
  ⟨rfl, fun _ => rfl⟩

/-- Claim C10: a freshly obtained chain cursor is the empty string;
done() is false on it (though true at the boundary token), while next()
treats the empty cursor exactly like the BOUNDARY cursor for lookup. -/
theorem C10_unset_cursor :
    (∀ input : String, (Corpus.start.build input).chain = .ok ⟨true, ""⟩) ∧
    MarkovChain.done ⟨true, ""⟩ = false ∧
    MarkovChain.done ⟨true, stopString⟩ = true ∧
    ∀ (d : Dict) (q : ℚ),
      MarkovChain.next d ⟨true, ""⟩ q = MarkovChain.next d ⟨true, stopString⟩ q := by
  refine ⟨fun input => rfl, by decide, by decide, fun d q => ?_⟩
  simp [MarkovChain.next, stopString]

/-- Counterexample to claim C8: done() on the default-constructed
(unbuilt) chain performs no check and silently returns false. -/
theorem C8_counterexample : MarkovChain.done MarkovChain.invalid = false := by decide

/-- Claim C8 as amended: next() on an unbuilt chain and chain() on an
unbuilt corpus surface usage errors, but done() silently returns false. -/
theorem C8_usage_errors (d : Dict) (q : ℚ) (c : Corpus) (hc : c.not_built = true) :
    MarkovChain.next d MarkovChain.invalid q = .error .invalidChain ∧
    c.chain = .error .needBuild ∧
    MarkovChain.done MarkovChain.invalid = false := by
  refine ⟨rfl, ?_, rfl⟩
  simp [Corpus.chain, hc]

/-- Witness for C8 on the freshly constructed corpus. -/
theorem C8_usage_errors_witness :
    MarkovChain.next [] MarkovChain.invalid 0 = .error .invalidChain ∧
    Corpus.start.chain = .error .needBuild ∧
    MarkovChain.done MarkovChain.invalid = false :=
  C8_usage_errors [] 0 Corpus.start rfl

/-- Counterexample to claim C3: building "a\n" and then "b\n" does not
equal a fresh build of "b\n" alone: the start table keeps the count for
"a" from the first corpus. -/
theorem C3_counterexample :
    (dictFind ((Corpus.start.build "a\n").build "b\n").dictionary stopString).map
        Word.transitions = some [("a", 1), ("b", 1)] ∧
    (dictFind (Corpus.start.build "b\n").dictionary stopString).map
        Word.transitions = some [("b", 1)] :=
  ⟨rfl, rfl⟩

/-- Claim C3 as amended: a second build never discards prior state: every
table of the old dictionary is still present afterwards and its
observation count can only have grown (incremental corpus append). -/
theorem C3_rebuild_accumulates (c : Corpus) (input k : String) (w : Word)
    (h : dictFind c.dictionary k = some w) :
    ∃ w', dictFind (c.build input).dictionary k = some w' ∧
      countSum w.transitions ≤ countSum w'.transitions := by
  simp only [Corpus.build]
  rw [dictFind_cacheAll]
  obtain ⟨w', hw', hle⟩ :=
    buildLoop_find input.data.length input.data stopString c.dictionary k w h
  refine ⟨w'.cache, ?_, ?_⟩
  · rw [hw']
    rfl
  · simp only [Word.cache]
    exact hle

/-- Witness for C3 as amended, at the corpora "a\n" then "b\n". -/
theorem C3_rebuild_accumulates_witness :
    ∃ w', dictFind ((Corpus.start.build "a\n").build "b\n").dictionary stopString
        = some w' ∧
      countSum (⟨stopString, [("a", 1)], 1, [1], ["a"]⟩ : Word).transitions
        ≤ countSum w'.transitions :=
  C3_rebuild_accumulates (Corpus.start.build "a\n") "b\n" stopString
    ⟨stopString, [("a", 1)], 1, [1], ["a"]⟩ (by with_unfolding_all rfl)

/-- Counterexample to claim C1: for the corpus "solo" (no trailing line
break) the built model has no table for "solo" at all, and generation
from the start yields the boundary token, not "solo". -/
theorem C1_counterexample :
    dictFind (Corpus.start.build "solo").dictionary "solo" = none ∧
    MarkovChain.run (Corpus.start.build "solo").dictionary ⟨true, ""⟩ [0]
      = .ok [stopString] := by
  refine ⟨rfl, by with_unfolding_all rfl⟩

/-- Claim C1 as amended: on a corpus with no trailing line break the final
parsed token is replaced by the stop string before being recorded, so for
"solo" the only table is BOUNDARY -> {BOUNDARY: 1} and every generation
step from the start immediately yields BOUNDARY. -/
theorem C1_trailing_token_dropped :
    (Corpus.start.build "solo").dictionary
      = [(stopString, ⟨stopString, [(stopString, 1)], 1, [1], [stopString]⟩)] ∧
    ∀ q : ℚ, 0 ≤ q → q < 1 →
      MarkovChain.run (Corpus.start.build "solo").dictionary ⟨true, ""⟩ [q]
        = .ok [stopString] := by
  have hdict : (Corpus.start.build "solo").dictionary
      = [(stopString, ⟨stopString, [(stopString, 1)], 1, [1], [stopString]⟩)] := by
    with_unfolding_all rfl
  refine ⟨hdict, ?_⟩
  intro q h0 h1
  rw [hdict]
  have hstep : MarkovChain.next
        [(stopString, ⟨stopString, [(stopString, 1)], 1, [1], [stopString]⟩)]
        ⟨true, ""⟩ q = .ok (stopString, ⟨true, stopString⟩) :=
    chain_next_eq _ "" stopString ⟨stopString, [(stopString, 1)], 1, [1], [stopString]⟩
      q stopString rfl rfl (word_next_one _ stopString rfl rfl q h0 h1)
  simp [MarkovChain.run, hstep]

/-- Witness for C1 as amended, at the draw 0. -/
theorem C1_trailing_token_dropped_witness :
    MarkovChain.run (Corpus.start.build "solo").dictionary ⟨true, ""⟩ [0]
      = .ok [stopString] :=
  C1_trailing_token_dropped.2 0 (by norm_num) (by norm_num)

theorem run_nil (d : Dict) (c : MarkovChain) : MarkovChain.run d c [] = .ok [] := rfl

theorem run_cons_ok (d : Dict) (c c' : MarkovChain) (q : ℚ) (qs : List ℚ)
    (s : String) (ss : List String)
    (h : MarkovChain.next d c q = .ok (s, c'))
    (hrest : MarkovChain.run d c' qs = .ok ss) :
    MarkovChain.run d c (q :: qs) = .ok (s :: ss) := by
  simp [MarkovChain.run, h, hrest]

/-- Claim C7: the corpus "x y\nz y\n" tokenizes to [x, y, BOUNDARY, z, y,
BOUNDARY] and builds exactly the tables start -> {x:1, z:1}, x -> {y:1},
y -> {BOUNDARY:2}, z -> {y:1}; every three-step generation run from the
start produces "x y" or "z y" followed by the boundary. -/
theorem C7_scenario :
    tokenize "x y\nz y\n" = ["x", "y", stopString, "z", "y", stopString] ∧
    (Corpus.start.build "x y\nz y\n").dictionary
      = [(stopString, ⟨stopString, [("x", 1), ("z", 1)], 2, [1/2, 1/2], ["x", "z"]⟩),
         ("x", ⟨"x", [("y", 1)], 1, [1], ["y"]⟩),
         ("y", ⟨"y", [(stopString, 2)], 2, [1], [stopString]⟩),
         ("z", ⟨"z", [("y", 1)], 1, [1], ["y"]⟩)] ∧
    ∀ q1 q2 q3 : ℚ, 0 ≤ q1 → q1 < 1 → 0 ≤ q2 → q2 < 1 → 0 ≤ q3 → q3 < 1 →
      MarkovChain.run (Corpus.start.build "x y\nz y\n").dictionary ⟨true, ""⟩ [q1, q2, q3]
          = .ok ["x", "y", stopString] ∨
      MarkovChain.run (Corpus.start.build "x y\nz y\n").dictionary ⟨true, ""⟩ [q1, q2, q3]
          = .ok ["z", "y", stopString] := by
  have hdict : (Corpus.start.build "x y\nz y\n").dictionary
      = [(stopString, ⟨stopString, [("x", 1), ("z", 1)], 2, [1/2, 1/2], ["x", "z"]⟩),
         ("x", ⟨"x", [("y", 1)], 1, [1], ["y"]⟩),
         ("y", ⟨"y", [(stopString, 2)], 2, [1], [stopString]⟩),
         ("z", ⟨"z", [("y", 1)], 1, [1], ["y"]⟩)] := by
    with_unfolding_all rfl
  refine ⟨by decide, hdict, ?_⟩
  intro q1 q2 q3 h1a h1b h2a h2b h3a h3b
  rw [hdict]
  have hx : MarkovChain.next
        [(stopString, ⟨stopString, [("x", 1), ("z", 1)], 2, [1/2, 1/2], ["x", "z"]⟩),
         ("x", ⟨"x", [("y", 1)], 1, [1], ["y"]⟩),
         ("y", ⟨"y", [(stopString, 2)], 2, [1], [stopString]⟩),
         ("z", ⟨"z", [("y", 1)], 1, [1], ["y"]⟩)] ⟨true, "x"⟩ q2
      = .ok ("y", ⟨true, "y"⟩) :=
    chain_next_eq _ "x" "x" ⟨"x", [("y", 1)], 1, [1], ["y"]⟩ q2 "y" rfl rfl
      (word_next_one _ "y" rfl rfl q2 h2a h2b)
  have hz : MarkovChain.next
        [(stopString, ⟨stopString, [("x", 1), ("z", 1)], 2, [1/2, 1/2], ["x", "z"]⟩),
         ("x", ⟨"x", [("y", 1)], 1, [1], ["y"]⟩),
         ("y", ⟨"y", [(stopString, 2)], 2, [1], [stopString]⟩),
         ("z", ⟨"z", [("y", 1)], 1, [1], ["y"]⟩)] ⟨true, "z"⟩ q2
      = .ok ("y", ⟨true, "y"⟩) :=
    chain_next_eq _ "z" "z" ⟨"z", [("y", 1)], 1, [1], ["y"]⟩ q2 "y" rfl rfl
      (word_next_one _ "y" rfl rfl q2 h2a h2b)
  have hy : MarkovChain.next
        [(stopString, ⟨stopString, [("x", 1), ("z", 1)], 2, [1/2, 1/2], ["x", "z"]⟩),
         ("x", ⟨"x", [("y", 1)], 1, [1], ["y"]⟩),
         ("y", ⟨"y", [(stopString, 2)], 2, [1], [stopString]⟩),
         ("z", ⟨"z", [("y", 1)], 1, [1], ["y"]⟩)] ⟨true, "y"⟩ q3
      = .ok (stopString, ⟨true, stopString⟩) :=
    chain_next_eq _ "y" "y" ⟨"y", [(stopString, 2)], 2, [1], [stopString]⟩ q3 stopString
      rfl rfl (word_next_one _ stopString rfl rfl q3 h3a h3b)
  by_cases hq : q1 < 1/2
  · left
    have hs : MarkovChain.next
          [(stopString, ⟨stopString, [("x", 1), ("z", 1)], 2, [1/2, 1/2], ["x", "z"]⟩),
           ("x", ⟨"x", [("y", 1)], 1, [1], ["y"]⟩),
           ("y", ⟨"y", [(stopString, 2)], 2, [1], [stopString]⟩),
           ("z", ⟨"z", [("y", 1)], 1, [1], ["y"]⟩)] ⟨true, ""⟩ q1
        = .ok ("x", ⟨true, "x"⟩) :=
      chain_next_eq _ "" stopString
        ⟨stopString, [("x", 1), ("z", 1)], 2, [1/2, 1/2], ["x", "z"]⟩ q1 "x" rfl rfl
        (word_next_two_lo _ "x" "z" rfl rfl q1 h1a hq)
    exact run_cons_ok _ _ _ _ _ _ _ hs
      (run_cons_ok _ _ _ _ _ _ _ hx (run_cons_ok _ _ _ _ _ _ _ hy (run_nil _ _)))
  · right
    have hs : MarkovChain.next
          [(stopString, ⟨stopString, [("x", 1), ("z", 1)], 2, [1/2, 1/2], ["x", "z"]⟩),
           ("x", ⟨"x", [("y", 1)], 1, [1], ["y"]⟩),
           ("y", ⟨"y", [(stopString, 2)], 2, [1], [stopString]⟩),
           ("z", ⟨"z", [("y", 1)], 1, [1], ["y"]⟩)] ⟨true, ""⟩ q1
        = .ok ("z", ⟨true, "z"⟩) :=
      chain_next_eq _ "" stopString
        ⟨stopString, [("x", 1), ("z", 1)], 2, [1/2, 1/2], ["x", "z"]⟩ q1 "z" rfl rfl
        (word_next_two_hi _ "x" "z" rfl rfl q1 (not_lt.mp hq) h1b)
    exact run_cons_ok _ _ _ _ _ _ _ hs
      (run_cons_ok _ _ _ _ _ _ _ hz (run_cons_ok _ _ _ _ _ _ _ hy (run_nil _ _)))

/-- Witness for C7 at the draws 0, 0, 0. -/
theorem C7_scenario_witness :
    MarkovChain.run (Corpus.start.build "x y\nz y\n").dictionary ⟨true, ""⟩ [0, 0, 0]
        = .ok ["x", "y", stopString] ∨
    MarkovChain.run (Corpus.start.build "x y\nz y\n").dictionary ⟨true, ""⟩ [0, 0, 0]
        = .ok ["z", "y", stopString] :=
  C7_scenario.2.2 0 0 0 (by norm_num) (by norm_num) (by norm_num) (by norm_num)
    (by norm_num) (by norm_num)

/-- Claim C9: generation is deterministic given a fixed random source: two
cursors in the same state fed the same draw sequence over the same
dictionary produce identical output sequences. -/
theorem C9_deterministic (d : Dict) (c₁ c₂ : MarkovChain) (qs₁ qs₂ : List ℚ)
    (hv : c₁.valid = c₂.valid) (hc : c₁.current_word = c₂.current_word)
    (hq : qs₁ = qs₂) :
    MarkovChain.run d c₁ qs₁ = MarkovChain.run d c₂ qs₂ := by
  obtain ⟨v₁, w₁⟩ := c₁
  obtain ⟨v₂, w₂⟩ := c₂
  simp only at hv hc
  rw [hv, hc, hq]

/-- Witness for C9 on a built dictionary with equal states and draws. -/
theorem C9_deterministic_witness :
    MarkovChain.run (Corpus.start.build "a\n").dictionary ⟨true, ""⟩ [0, 0]
      = MarkovChain.run (Corpus.start.build "a\n").dictionary ⟨true, ""⟩ [0, 0] :=
  C9_deterministic (Corpus.start.build "a\n").dictionary ⟨true, ""⟩ ⟨true, ""⟩
    [0, 0] [0, 0] rfl rfl rfl
